import Mathlib

/-!
Shallow embedding of the clip segmentation and subtitle synchronization
engine of src/services/video_processor.py (class VideoProcessor).

Numbers are modelled as exact rationals (the Python code computes with
IEEE doubles).  The pseudo-random generator (Python random, seeded in
generate_varied_start_points) is modelled as a stream u : Nat -> Rat of
draws in [0,1] indexed by consumption order; random.uniform a b becomes
a + u * (b - a).  The seed dependence is modelled by a function
prng : Nat -> Nat -> Rat mapping a seed to its stream.
-/

/-- Model of random.uniform a b for a single draw u in [0,1]:
a + u * (b - a). -/
def uniformDraw (u a b : ℚ) : ℚ := a + u * (b - a)

/-- Rational stand-in for the transcendental math.exp used by
_exponential_variation (video_processor.py line 1020): a truncated Taylor
series.  No theorem below depends on its values. -/
def expQ (x : ℚ) : ℚ := ((List.range 14).map (fun k => x ^ k / (Nat.factorial k : ℚ))).sum

/-- The forward minimum-spacing walk applied after sorting
(video_processor.py lines 913-915 and 990-992):
whenever point i - point (i-1) < cut, push point i to point (i-1) + cut.
fixAux threads the already-corrected previous point. -/
def fixAux (cut prev : ℚ) : List ℚ → List ℚ
  | [] => []
  | y :: rest =>
      let y2 := if y - prev < cut then prev + cut else y
      y2 :: fixAux cut y2 rest

/-- Minimum-spacing correction over a whole list (first point untouched). -/
def fixSpacing (cut : ℚ) : List ℚ → List ℚ
  | [] => []
  | x :: rest => x :: fixAux cut x rest

/-- Insert a value in front of the first list element it does not
exceed. -/
def insertSorted (a : ℚ) : List ℚ → List ℚ
  | [] => [a]
  | b :: rest => if a ≤ b then a :: b :: rest else b :: insertSorted a rest

/-- Python list.sort() / sorted() on rationals, modelled as an insertion
sort (for rational values any ascending sort has the same result). -/
def pySort (l : List ℚ) : List ℚ := l.foldr insertSorted []

/-- _simple_variation raw points before sorting (lines 894-909): one
section per cut, a random offset of at most min(sectionSize, cut/2)
inside each section. -/
def simpleRawPoints (available cut : ℚ) (n : ℕ) (u : ℕ → ℚ) : List ℚ :=
  (List.range n).map (fun (i : ℕ) =>
    let sectionSize := available / (n : ℚ)
    let sectionStart := (i : ℚ) * sectionSize
    let sectionEnd := min (((i : ℚ) + 1) * sectionSize) available
    let startPoint :=
      if sectionStart < sectionEnd then
        sectionStart + uniformDraw (u i) 0 (min (sectionEnd - sectionStart) (cut * (1/2)))
      else sectionStart
    max 0 startPoint)

/-- _simple_variation (lines 890-917): raw points, sort ascending, then
the minimum-spacing walk. -/
def simpleVariation (available cut : ℚ) (n : ℕ) (u : ℕ → ℚ) : List ℚ :=
  fixSpacing cut (pySort (simpleRawPoints available cut n u))

/-- _linear_random_variation (lines 996-1010): base points at multiples
of available/(n+1), jittered by plus or minus 20 percent of the interval,
clamped to [0, available], then sorted.  No spacing correction. -/
def linearRandomVariation (available cut : ℚ) (n : ℕ) (u : ℕ → ℚ) : List ℚ :=
  pySort ((List.range n).map (fun (i : ℕ) =>
    let baseInterval := available / ((n : ℚ) + 1)
    let basePoint := ((i : ℚ) + 1) * baseInterval
    let variation := uniformDraw (u i) (-(1/5)) (1/5) * baseInterval
    max 0 (min (basePoint + variation) available)))

/-- _exponential_variation (lines 1012-1024): deterministic front-loaded
points, no randomness consumed, then sorted. -/
def exponentialVariation (available cut : ℚ) (n : ℕ) (u : ℕ → ℚ) : List ℚ :=
  pySort ((List.range n).map (fun (i : ℕ) =>
    let progress : ℚ := if 1 < n then (i : ℚ) / ((n : ℚ) - 1) else 0
    max 0 (available * (1 - expQ (-2 * progress)))))

/-- _spread_out_variation (lines 1053-1072): the midpoint of each of n
equal sections, jittered by up to 30 percent of the section size, clamped
to the section, then sorted.  No spacing correction. -/
def spreadOutVariation (available cut : ℚ) (n : ℕ) (u : ℕ → ℚ) : List ℚ :=
  pySort ((List.range n).map (fun (i : ℕ) =>
    let sectionSize := available / (n : ℚ)
    let sectionStart := (i : ℚ) * sectionSize
    let sectionEnd := min (((i : ℚ) + 1) * sectionSize) available
    let midPoint := (sectionStart + sectionEnd) / 2
    let variation := uniformDraw (u i) (-(sectionSize * (3/10))) (sectionSize * (3/10))
    max sectionStart (min (midPoint + variation) sectionEnd)))

/-- _clustered_variation (lines 1026-1051): min(3, n/2) clusters, points
distributed evenly inside each cluster with a small jitter, then sorted.
The fold threads the count of draws consumed so far. -/
def clusteredVariation (available cut : ℚ) (n : ℕ) (u : ℕ → ℚ) : List ℚ :=
  let numClusters := min 3 (n / 2)
  let clusterSize := available / (numClusters : ℚ)
  let cutsPerCluster := n / numClusters
  let step := fun (acc : List ℚ × ℕ) (cluster : ℕ) =>
    let clusterStart := (cluster : ℚ) * clusterSize
    let clusterEnd := min (((cluster : ℚ) + 1) * clusterSize) available
    let clusterCuts := min cutsPerCluster (n - acc.1.length)
    let newPoints := (List.range clusterCuts).map (fun (j : ℕ) =>
      let progress := (j : ℚ) / ((max 1 (clusterCuts - 1) : ℕ) : ℚ)
      let basePoint := clusterStart + (clusterEnd - clusterStart) * progress
      let variation := uniformDraw (u (acc.2 + j)) (-(cut * (3/10))) (cut * (3/10))
      max clusterStart (min (basePoint + variation) clusterEnd))
    (acc.1 ++ newPoints, acc.2 + clusterCuts)
  pySort ((List.range numClusters).foldl step ([], 0)).1

/-- _medium_variation (lines 919-948): sub-strategy chosen by n; for
n > 7 the random.choice among the four patterns is modelled as the index
min 3 (floor (u 0 * 4)) drawn from the stream, the sub-strategy then
using the rest of the stream. -/
def mediumVariation (available cut : ℚ) (n : ℕ) (u : ℕ → ℚ) : List ℚ :=
  if n ≤ 3 then spreadOutVariation available cut n u
  else if n ≤ 7 then linearRandomVariation available cut n u
  else
    let k : ℕ := min 3 (Int.toNat ⌊u 0 * 4⌋)
    let u2 := fun i => u (i + 1)
    if k = 0 then linearRandomVariation available cut n u2
    else if k = 1 then exponentialVariation available cut n u2
    else if k = 2 then clusteredVariation available cut n u2
    else spreadOutVariation available cut n u2

/-- The backfill while-loop of _advanced_variation (lines 981-986):
draw a uniform point, reject it when closer than 0.8 * cut to an existing
point.  The Python loop is unbounded (it need not terminate when no room
is left); it is modelled with explicit fuel. -/
def advancedBackfill (available cut : ℚ) (n : ℕ) (u : ℕ → ℚ) :
    ℕ → ℕ → List ℚ → List ℚ
  | 0, _, pts => pts
  | fuel + 1, idx, pts =>
      if pts.length < n then
        let p := uniformDraw (u idx) 0 available
        if pts.any (fun q => decide (|p - q| < cut * (4/5))) then
          advancedBackfill available cut n u fuel (idx + 1) pts
        else
          advancedBackfill available cut n u fuel (idx + 1) (pts ++ [p])
      else pts

/-- _advanced_variation (lines 950-994): four zones, spread-out points
shifted into each zone, random backfill, sort, spacing walk, truncate
to n. -/
def advancedVariation (available cut : ℚ) (n : ℕ) (u : ℕ → ℚ) : List ℚ :=
  let zones : ℕ := 4
  let zoneDuration := available / (zones : ℚ)
  let cutsPerZone := max 1 (n / zones)
  let step := fun (acc : List ℚ × ℕ) (zone : ℕ) =>
    let zoneStart := (zone : ℚ) * zoneDuration
    let zoneEnd := min (((zone : ℚ) + 1) * zoneDuration) available
    let zoneCuts := min cutsPerZone (n - acc.1.length)
    if 0 < zoneCuts then
      let zonePoints := (spreadOutVariation (zoneEnd - zoneStart) cut zoneCuts
        (fun j => u (acc.2 + j))).map (fun p => zoneStart + p)
      (acc.1 ++ zonePoints, acc.2 + zoneCuts)
    else acc
  let filled :=
    let acc := (List.range zones).foldl step ([], 0)
    advancedBackfill available cut n u (1000 * (n + 1)) acc.2 acc.1
  (fixSpacing cut (pySort filled)).take n

/-- generate_varied_start_points (lines 862-888) as a function of the
draw stream (the stream plays the role of the seeded global RNG). -/
def generateVariedStartPoints (totalDuration cutDuration : ℚ) (numCuts : ℕ)
    (u : ℕ → ℚ) : List ℚ :=
  if totalDuration ≤ cutDuration * 2 then
    if numCuts = 1 then [0] else [0, totalDuration - cutDuration]
  else
    let availableDuration := totalDuration - cutDuration
    if availableDuration ≤ 0 then [0]
    else if totalDuration ≤ 300 then
      simpleVariation availableDuration cutDuration numCuts u
    else if totalDuration ≤ 1800 then
      mediumVariation availableDuration cutDuration numCuts u
    else
      advancedVariation availableDuration cutDuration numCuts u

/-- generate_varied_start_points including the seeding step of line 880:
random.seed(processing_count + 42), modelled by selecting the stream
prng (processingCount + 42) of an arbitrary seed-to-stream function. -/
def generateForRun (totalDuration cutDuration : ℚ) (numCuts : ℕ)
    (processingCount : ℕ) (prng : ℕ → ℕ → ℚ) : List ℚ :=
  generateVariedStartPoints totalDuration cutDuration numCuts
    (prng (processingCount + 42))

/-- Clip-count policy of create_cuts (lines 167-181).  The final branch
models min(20, int(total // duration)); a nonpositive floor becomes 0,
matching range() over a nonpositive Python int. -/
def numCutsFor (totalDuration duration : ℚ) : ℕ :=
  if totalDuration ≤ 5 then 1
  else if totalDuration ≤ duration then 1
  else if totalDuration ≤ duration * 3 then 3
  else if totalDuration ≤ duration * 5 then 5
  else if totalDuration ≤ duration * 10 then 10
  else min 20 (Int.toNat ⌊totalDuration / duration⌋)

/-- One planned clip: id (1-indexed loop position), start_time, end_time
(create_cuts lines 192-261). -/
structure ClipSpec where
  id : ℕ
  startTime : ℚ
  endTime : ℚ
  deriving DecidableEq, Repr

/-- The planning core of the create_cuts loop (lines 192-261): for
position i the start point pts[i] (a missing index raises and the clip is
skipped, like any exception in the loop body), end = min(start + duration,
total), and the clip is dropped when its effective length is below 1s. -/
def cutsFromPoints (pts : List ℚ) (duration totalDuration : ℚ) (n : ℕ) :
    List ClipSpec :=
  (List.range n).filterMap (fun i =>
    match pts[i]? with
    | none => none
    | some startTime =>
        let endTime := min (startTime + duration) totalDuration
        if endTime - startTime < 1 then none
        else some ⟨i + 1, startTime, endTime⟩)

/-- create_cuts planning pipeline (lines 156-272): clip count from the
policy, varied start points, then the per-clip window computation. -/
def createCuts (totalDuration duration : ℚ) (u : ℕ → ℚ) : List ClipSpec :=
  let n := numCutsFor totalDuration duration
  cutsFromPoints (generateVariedStartPoints totalDuration duration n u)
    duration totalDuration n

/-- Python str.split() with no argument: split on whitespace runs,
dropping empty pieces. -/
def pySplitWs (s : String) : List String :=
  (s.split (fun c => c.isWhitespace)).filter (fun t => t ≠ "")

/-- " ".join(words) -/
def joinWords (words : List String) : String := String.intercalate " " words

/-- The character-removal chain of create_subtitles (lines 476 and 497):
replace('"', '').replace("chr 39", '').replace(backslash, ''), i.e. drop
double quotes, single quotes (char 39) and backslashes. -/
def cleanText (s : String) : String :=
  String.mk (s.data.filter (fun c => ¬(c = '"' ∨ c = Char.ofNat 39 ∨ c = '\\')))

/-- Words taken in chunks of n (the tier-3 grouping loop of
split_into_sentences, lines 595-597). -/
def chunksOf (n : ℕ) (l : List String) : List (List String) :=
  if h : n = 0 ∨ l = [] then []
  else
    l.take n :: chunksOf n (l.drop n)
  termination_by l.length
  decreasing_by
    simp only [List.length_drop]
    have hn : n ≠ 0 := fun he => h (Or.inl he)
    have hl : l ≠ [] := fun he => h (Or.inr he)
    have : 0 < l.length := List.length_pos.mpr hl
    omega

/-- split_into_sentences (lines 562-601).  Tier 1 walks the characters,
closing a sentence at each of the characters full stop, exclamation or
question mark (the list entry "..." in the source can never equal a
single character and is redundant); tier 2 splits on commas; tier 3
groups words in chunks of max(8, wordCount/3) when there are more than
10 words; otherwise the whole text is returned as one element. -/
def splitIntoSentences (text : String) : List String :=
  let step := fun (acc : List String × List Char) (c : Char) =>
    let current := acc.2 ++ [c]
    if c = '.' ∨ c = '!' ∨ c = '?' then
      (if (String.mk current).trim ≠ "" then acc.1 ++ [(String.mk current).trim]
       else acc.1, [])
    else (acc.1, current)
  let walked := text.data.foldl step ([], [])
  let tier1 :=
    if (String.mk walked.2).trim ≠ "" then walked.1 ++ [(String.mk walked.2).trim]
    else walked.1
  let tier2 :=
    if tier1.length ≤ 1 then
      ((text.splitOn ",").map String.trim).filter (fun t => t ≠ "")
    else tier1
  if tier2.length ≤ 1 then
    let ws := pySplitWs text
    if 10 < ws.length then
      let groupSize := max 8 (ws.length / 3)
      (chunksOf groupSize ws).map joinWords
    else [text]
  else tier2

/-- The greedy re-flow accumulator of create_multi_line_subtitle
(lines 649-665): completed lines, current line words, current length. -/
def greedyStep (acc : List String × List String × ℕ) (w : String) :
    List String × List String × ℕ :=
  if acc.2.2 + w.length + 1 ≤ 25 ∧ acc.1.length < 2 then
    (acc.1, acc.2.1 ++ [w], acc.2.2 + w.length + 1)
  else
    ((if acc.2.1 = [] then acc.1 else acc.1 ++ [joinWords acc.2.1]), [w], w.length)

/-- Greedy re-flow of a word list into lines of at most 25 characters
while fewer than 2 lines are completed (lines 649-665). -/
def greedyLines (ws : List String) : List String :=
  let acc := ws.foldl greedyStep ([], [], 0)
  if acc.2.1 = [] then acc.1 else acc.1 ++ [joinWords acc.2.1]

/-- One step of the final while-loop of create_multi_line_subtitle
(lines 668-672): merge the last two lines. -/
def mergeLastTwo (lines : List String) : List String :=
  match lines.reverse with
  | lastLine :: prevLine :: rest => ((prevLine ++ " " ++ lastLine) :: rest).reverse
  | _ => lines

/-- The while len(lines) > 3 loop, with fuel (each iteration shortens the
list by one, so lines.length steps always suffice). -/
def mergeTo3Fuel : ℕ → List String → List String
  | 0, lines => lines
  | fuel + 1, lines =>
      if lines.length ≤ 3 then lines else mergeTo3Fuel fuel (mergeLastTwo lines)

/-- Merge the last two lines repeatedly until at most 3 remain. -/
def mergeTo3 (lines : List String) : List String := mergeTo3Fuel lines.length lines

/-- create_multi_line_subtitle (lines 603-678). -/
def createMultiLineSubtitle (words : List String) : String :=
  if words = [] then "Transcrição\\Nautomática"
  else
    let text := joinWords words
    if text.length ≤ 20 then text
    else if text.length ≤ 40 then
      let midPoint := words.length / 2
      joinWords (words.take midPoint) ++ "\\N" ++ joinWords (words.drop midPoint)
    else
      let totalWords := words.length
      let part1End := totalWords / 3
      let part2End := totalWords * 2 / 3
      let line1Words := words.take part1End
      let line2Words := (words.drop part1End).take (part2End - part1End)
      let line3Words := words.drop part2End
      let line1 := joinWords line1Words
      let line2 := joinWords line2Words
      let line3 := joinWords line3Words
      if 25 < line1.length ∨ 25 < line2.length ∨ 25 < line3.length then
        String.intercalate "\\N"
          (mergeTo3 (greedyLines (line1Words ++ line2Words ++ line3Words)))
      else line1 ++ "\\N" ++ line2 ++ "\\N" ++ line3

/-- Python float floor-mod x % m = x - m * floor(x / m) (sign of the
divisor; our uses have m > 0). -/
def pyMod (x m : ℚ) : ℚ := x - m * ⌊x / m⌋

/-- hours = int(seconds // 3600) (format_srt_time line 682). -/
def srtHours (s : ℚ) : ℤ := ⌊s / 3600⌋

/-- minutes = int((seconds % 3600) // 60) (line 683). -/
def srtMinutes (s : ℚ) : ℤ := ⌊pyMod s 3600 / 60⌋

/-- secs = int(seconds % 60) (line 684; the operand is nonnegative, so
int() truncation equals the floor). -/
def srtSecs (s : ℚ) : ℤ := ⌊pyMod s 60⌋

/-- millisecs = int((seconds % 1) * 1000) (line 685). -/
def srtMillis (s : ℚ) : ℤ := ⌊pyMod s 1 * 1000⌋

/-- Decimal digit characters of n, by repeated division (fuelled; fuel
n + 1 always suffices). -/
def natDigitsAux : ℕ → ℕ → List Char
  | 0, _ => []
  | fuel + 1, n =>
      if n < 10 then [Char.ofNat (48 + n)]
      else natDigitsAux fuel (n / 10) ++ [Char.ofNat (48 + n % 10)]

/-- Decimal rendering of a natural number. -/
def natRepr (n : ℕ) : String := String.mk (natDigitsAux (n + 1) n)

/-- Decimal rendering of an integer (Python str / format rendering). -/
def intRepr (n : ℤ) : String :=
  if n < 0 then "-" ++ natRepr n.natAbs else natRepr n.natAbs

/-- Python format spec 02d: pad a (nonnegative) value to two digits. -/
def pad2 (n : ℤ) : String :=
  if 0 ≤ n ∧ n < 10 then "0" ++ intRepr n else intRepr n

/-- Python format spec 03d: pad a (nonnegative) value to three digits. -/
def pad3 (n : ℤ) : String :=
  if 0 ≤ n ∧ n < 10 then "00" ++ intRepr n
  else if 0 ≤ n ∧ n < 100 then "0" ++ intRepr n
  else intRepr n

/-- format_srt_time (lines 680-686).  The float seconds argument is
modelled as an exact rational; to reproduce the program on a decimal
literal, evaluate at the rational value of the nearest IEEE-754 double
(the float operations of lines 682-685 are exact at such inputs, the
divisions entering only through floors). -/
def formatSrtTime (s : ℚ) : String :=
  pad2 (srtHours s) ++ ":" ++ pad2 (srtMinutes s) ++ ":" ++ pad2 (srtSecs s)
    ++ "," ++ pad3 (srtMillis s)

/-- One Whisper transcription segment: absolute start/end timestamps and
text. -/
structure Segment where
  start : ℚ
  endTime : ℚ
  text : String
  deriving DecidableEq, Repr

/-- The two shapes create_subtitles accepts (line 439): a dict with text
and segments, or anything whose str() is used as plain text. -/
inductive Transcription where
  | structured (text : String) (segments : List Segment)
  | plain (text : String)
  deriving DecidableEq, Repr

/-- relative_start = max(0, original_start - cut_start_time)
(create_subtitles line 467). -/
def relativeStart (cutStartTime : ℚ) (seg : Segment) : ℚ :=
  max 0 (seg.start - cutStartTime)

/-- relative_end = min(max(0, original_end - cut_start_time),
cut_duration) (lines 468-471, two sequential assignments). -/
def relativeEnd (cutStartTime cutDuration : ℚ) (seg : Segment) : ℚ :=
  min (max 0 (seg.endTime - cutStartTime)) cutDuration

/-- Per-segment cue construction of the structured branch
(lines 457-487): clean the stripped text, emit only when the cleaned text
is non-empty and relative_end > relative_start, the cue text being the
multi-line wrap of the cleaned text's words. -/
def segmentCue (cutStartTime cutDuration : ℚ) (seg : Segment) :
    Option (ℚ × ℚ × String) :=
  let rs := relativeStart cutStartTime seg
  let re := relativeEnd cutStartTime cutDuration seg
  let segmentText := cleanText seg.text.trim
  if segmentText ≠ "" ∧ rs < re then
    some (rs, re, createMultiLineSubtitle (pySplitWs segmentText))
  else none

/-- One SRT block: id, time range line, wrapped text, blank line. -/
def formatBlock (idx : ℕ) (a b : ℚ) (txt : String) : String :=
  natRepr idx ++ "\n" ++ formatSrtTime a ++ " --> " ++ formatSrtTime b
    ++ "\n" ++ txt ++ "\n\n"

/-- Serialization of the emitted cues of the structured branch, with
subtitle_id counting only emitted cues from 1 (lines 453-487). -/
def structuredBody (cutStartTime cutDuration : ℚ) (segments : List Segment) :
    String :=
  String.join (((segments.filterMap (segmentCue cutStartTime cutDuration)).enum).map
    (fun p => formatBlock (p.1 + 1) p.2.1 p.2.2.1 p.2.2.2))

/-- The plain-text branch of create_subtitles (lines 489-521): strip,
default when empty, remove quotes and backslashes, split into sentences,
allocate max(1, cutDuration / count) seconds per sentence from t = 0. -/
def plainBody (cutDuration : ℚ) (text0 : String) : String :=
  let text1 := text0.trim
  let text2 := if text1 = "" then "Transcrição automática" else text1
  let text := cleanText text2
  let sentences := splitIntoSentences text
  if sentences = [] then
    "1\n00:00:00,000 --> " ++ formatSrtTime cutDuration ++ "\n" ++ text ++ "\n\n"
  else
    let timePerSentence := max 1 (cutDuration / (sentences.length : ℚ))
    String.join ((sentences.enum).map (fun p =>
      formatBlock (p.1 + 1) ((p.1 : ℚ) * timePerSentence)
        (min (((p.1 : ℚ) + 1) * timePerSentence) cutDuration)
        (createMultiLineSubtitle (pySplitWs p.2))))

/-- Lines of a character list, split at newline characters (model of
Python s.split over a single newline separator). -/
def splitNl : List Char → List (List Char)
  | [] => [[]]
  | c :: rest =>
      match splitNl rest with
      | [] => [[c]]
      | h :: t => if c = '\n' then [] :: h :: t else (c :: h) :: t

/-- Does a character list contain the marker - - > (as three adjacent
characters)? -/
def hasArrow : List Char → Bool
  | '-' :: '-' :: '>' :: _ => true
  | _ :: rest => hasArrow rest
  | [] => false

/-- The final validity check of create_subtitles (line 535):
any line of the serialized content containing the time-range marker. -/
def hasTimestampLine (s : String) : Bool :=
  (splitNl s.data).any hasArrow

/-- The three escalating final checks of create_subtitles
(lines 524-537): replace the serialized content when it is blank, when
its stripped length is under 20 characters, and when no line carries the
time-range marker. -/
def applyFinalChecks (cutId : ℕ) (cutDuration : ℚ) (base : String) : String :=
  let s1 :=
    if base.trim = "" then
      "1\n00:00:00,000 --> " ++ formatSrtTime cutDuration
        ++ "\nTranscrição automática do corte " ++ natRepr cutId
        ++ "\\NLegendas embutidas no vídeo\n\n"
    else base
  let s2 :=
    if s1.trim.length < 20 then
      "1\n00:00:00,000 --> " ++ formatSrtTime cutDuration
        ++ "\nLegenda automática\\Ncorte " ++ natRepr cutId ++ "\n\n"
    else s1
  if ¬ hasTimestampLine s2 then
    "1\n00:00:00,000 --> " ++ formatSrtTime cutDuration
      ++ "\nTranscrição automática\\Ncorte " ++ natRepr cutId ++ "\n\n"
  else s2

/-- create_subtitles content construction (lines 405-537) for a given
cut id, looked-up cut start time and probed cut duration: the input
pre-check (lines 416-421), the structured/plain branches, and the three
escalating final checks (lines 524-537). -/
def createSrtContent (data : Transcription) (cutId : ℕ)
    (cutStartTime cutDuration : ℚ) : String :=
  let data2 :=
    match data with
    | Transcription.plain s =>
        if s.trim = "" then
          Transcription.plain ("Transcrição automática do corte " ++ natRepr cutId)
        else Transcription.plain s
    | d => d
  let base :=
    match data2 with
    | Transcription.structured text segments =>
        if segments = [] then
          "1\n00:00:00,000 --> " ++ formatSrtTime cutDuration ++ "\n" ++ text ++ "\n\n"
        else structuredBody cutStartTime cutDuration segments
    | Transcription.plain s => plainBody cutDuration s
  applyFinalChecks cutId cutDuration base

/-- get_cut_start_time (lines 1074-1114) on an explicit store of already
known start times (the _cut_start_times dict) and the probed total
duration; returns the start time and the updated store. -/
def getCutStartTime (store : List (ℕ × ℚ)) (totalDuration : ℚ) (cutId : ℕ) :
    ℚ × List (ℕ × ℚ) :=
  match store.lookup cutId with
  | some t => (t, store)
  | none =>
      let cutDuration : ℚ := 30
      let availableDuration := totalDuration - cutDuration
      if availableDuration ≤ 0 then (0, store)
      else
        let startTime := min (((cutId : ℚ) - 1) * cutDuration) availableDuration
        (startTime, (cutId, startTime) :: store)

/-- The timestamp adjustment of transcribe_segment (lines 1162-1170):
shift every segment by the clip's start time and strip its text. -/
def adjustSegments (segments : List Segment) (startTime : ℚ) : List Segment :=
  segments.map (fun seg =>
    ⟨seg.start + startTime, seg.endTime + startTime, seg.text.trim⟩)

/-! ### Lemmas about the minimum-spacing walk -/

set_option maxHeartbeats 4000000

theorem fixAux_chain (cut : ℚ) :
    ∀ (l : List ℚ) (prev : ℚ),
      List.Chain (fun a b => a + cut ≤ b) prev (fixAux cut prev l) := by
  intro l
  induction l with
  | nil => intro prev; exact List.Chain.nil
  | cons y rest ih =>
      intro prev
      simp only [fixAux]
      refine List.Chain.cons ?_ (ih _)
      by_cases h : y - prev < cut
      · simp [h]
      · simp only [h, if_false]
        linarith [not_lt.mp h]

theorem fixAux_nonneg (cut : ℚ) (hcut : 0 ≤ cut) :
    ∀ (l : List ℚ) (prev : ℚ), 0 ≤ prev → (∀ y ∈ l, 0 ≤ y) →
      ∀ z ∈ fixAux cut prev l, 0 ≤ z := by
  intro l
  induction l with
  | nil => intro prev _ _ z hz; simp [fixAux] at hz
  | cons y rest ih =>
      intro prev hprev hall z hz
      simp only [fixAux, List.mem_cons] at hz
      have hy : 0 ≤ y := hall y (List.mem_cons_self y rest)
      have hy2 : 0 ≤ (if y - prev < cut then prev + cut else y) := by
        by_cases h : y - prev < cut
        · simp only [h, if_true]; linarith
        · simpa [h]
      rcases hz with hz | hz
      · exact hz ▸ hy2
      · exact ih _ hy2 (fun w hw => hall w (List.mem_cons_of_mem y hw)) z hz

theorem fixSpacing_chain (cut : ℚ) (l : List ℚ) :
    List.Chain' (fun a b => a + cut ≤ b) (fixSpacing cut l) := by
  cases l with
  | nil => simp [fixSpacing]
  | cons x rest => exact fixAux_chain cut rest x

theorem fixSpacing_nonneg (cut : ℚ) (hcut : 0 ≤ cut) (l : List ℚ)
    (hl : ∀ y ∈ l, 0 ≤ y) : ∀ z ∈ fixSpacing cut l, 0 ≤ z := by
  cases l with
  | nil => intro z hz; simp [fixSpacing] at hz
  | cons x rest =>
      intro z hz
      simp only [fixSpacing, List.mem_cons] at hz
      have hx : 0 ≤ x := hl x (List.mem_cons_self x rest)
      rcases hz with hz | hz
      · exact hz ▸ hx
      · exact fixAux_nonneg cut hcut rest x hx
          (fun w hw => hl w (List.mem_cons_of_mem x hw)) z hz

theorem fixSpacing_sorted (cut : ℚ) (hcut : 0 < cut) (l : List ℚ) :
    List.Sorted (· ≤ ·) (fixSpacing cut l) := by
  have h := (fixSpacing_chain cut l).imp
    (fun a b (hab : a + cut ≤ b) => by linarith : ∀ a b : ℚ, a + cut ≤ b → a ≤ b)
  exact List.chain'_iff_pairwise.mp h

theorem mem_insertSorted (a x : ℚ) :
    ∀ l : List ℚ, x ∈ insertSorted a l ↔ x = a ∨ x ∈ l := by
  intro l
  induction l with
  | nil => simp [insertSorted]
  | cons b rest ih =>
      simp only [insertSorted]
      by_cases h : a ≤ b
      · simp [h]
      · simp only [h, if_false, List.mem_cons, ih]
        tauto

theorem mem_pySort (l : List ℚ) (a : ℚ) : a ∈ pySort l ↔ a ∈ l := by
  unfold pySort
  induction l with
  | nil => simp
  | cons b rest ih =>
      simp only [List.foldr_cons, mem_insertSorted, List.mem_cons, ih]

theorem simpleRawPoints_nonneg (available cut : ℚ) (n : ℕ) (u : ℕ → ℚ) :
    ∀ p ∈ simpleRawPoints available cut n u, 0 ≤ p := by
  intro p hp
  simp only [simpleRawPoints, List.mem_map] at hp
  obtain ⟨i, _, hi⟩ := hp
  simp only [← hi]
  exact le_max_left 0 _

/-- Claim C1 (corrected claim, counterexample): the minimum-spacing and
range invariants fail as universally stated.  With
(totalDuration, cutDuration, numCuts) = (10, 8, 2) the short-video branch
returns [0, 2] whose consecutive gap 2 is below cutDuration = 8, and with
(100, 30, 5) the spacing walk pushes the last point to 120, beyond
totalDuration = 100 (here under the all-zero draw stream; the cascade is
forced for every stream because consecutive raw sections are only 14
apart). -/
theorem C1_start_points_counterexample :
    (generateVariedStartPoints 10 8 2 (fun _ => 0) = [0, 2] ∧
      ¬ ((0 : ℚ) + 8 ≤ 2)) ∧
    (generateVariedStartPoints 100 30 5 (fun _ => 0) = [0, 30, 60, 90, 120] ∧
      ¬ ((120 : ℚ) ≤ 100)) := by
  refine ⟨⟨?_, by norm_num⟩, ⟨?_, by norm_num⟩⟩ <;> with_unfolding_all decide

/-- Claim C1 (amended): for the simple tier (totalDuration ≤ 300s) with
totalDuration > 2 × cutDuration, cutDuration > 0 and numCuts ≥ 1,
generate_varied_start_points returns a sequence sorted ascending whose
consecutive points are separated by at least cutDuration, and every point
is ≥ 0; the points are not guaranteed to stay ≤ totalDuration, and the
short-video branch (totalDuration ≤ 2 × cutDuration) gives no spacing
guarantee. -/
theorem C1_start_points_amended (totalDuration cutDuration : ℚ) (n : ℕ)
    (u : ℕ → ℚ) (hcut : 0 < cutDuration) (hn : 1 ≤ n)
    (h2 : cutDuration * 2 < totalDuration) (h300 : totalDuration ≤ 300) :
    List.Chain' (fun a b => a + cutDuration ≤ b)
      (generateVariedStartPoints totalDuration cutDuration n u) ∧
    List.Sorted (· ≤ ·) (generateVariedStartPoints totalDuration cutDuration n u) ∧
    ∀ p ∈ generateVariedStartPoints totalDuration cutDuration n u, 0 ≤ p := by
  have hgen : generateVariedStartPoints totalDuration cutDuration n u =
      simpleVariation (totalDuration - cutDuration) cutDuration n u := by
    unfold generateVariedStartPoints
    rw [if_neg (by linarith), if_neg (by intro h; linarith), if_pos h300]
  rw [hgen]
  unfold simpleVariation
  refine ⟨fixSpacing_chain _ _, fixSpacing_sorted _ hcut _, ?_⟩
  refine fixSpacing_nonneg _ (le_of_lt hcut) _ ?_
  intro y hy
  rw [mem_pySort] at hy
  exact simpleRawPoints_nonneg _ _ _ _ y hy

theorem C1_start_points_amended_witness :
    (0 : ℚ) < 30 ∧ 1 ≤ 5 ∧ (30 : ℚ) * 2 < 100 ∧ (100 : ℚ) ≤ 300 ∧
    (List.Chain' (fun a b => a + 30 ≤ b)
      (generateVariedStartPoints 100 30 5 (fun _ => 0)) ∧
    List.Sorted (· ≤ ·) (generateVariedStartPoints 100 30 5 (fun _ => 0)) ∧
    ∀ p ∈ generateVariedStartPoints 100 30 5 (fun _ => 0), 0 ≤ p) :=
  ⟨by norm_num, by norm_num, by norm_num, by norm_num,
    C1_start_points_amended 100 30 5 (fun _ => 0) (by norm_num) (by norm_num)
      (by norm_num) (by norm_num)⟩

/-- Claim C2: the start-point plan depends on the processing count only
through the stream the seeded generator produces for seed
processingCount + 42; in particular, two runs with the same processing
count and the same generator produce identical plans, whatever
(totalDuration, cutDuration, numCuts). -/
theorem C2_seed_determinism (totalDuration cutDuration : ℚ) (n : ℕ)
    (pc1 pc2 : ℕ) (prng1 prng2 : ℕ → ℕ → ℚ)
    (h : prng1 (pc1 + 42) = prng2 (pc2 + 42)) :
    generateForRun totalDuration cutDuration n pc1 prng1 =
      generateForRun totalDuration cutDuration n pc2 prng2 := by
  unfold generateForRun
  rw [h]

theorem C2_seed_determinism_witness :
    (fun (s : ℕ) (_ : ℕ) => if s = 49 then (0 : ℚ) else 1) (7 + 42) =
      (fun (_ : ℕ) (_ : ℕ) => (0 : ℚ)) (7 + 42) ∧
    generateForRun 100 30 5 7 (fun (s : ℕ) (_ : ℕ) => if s = 49 then (0 : ℚ) else 1) =
      generateForRun 100 30 5 7 (fun (_ : ℕ) (_ : ℕ) => (0 : ℚ)) :=
  ⟨by funext i; norm_num,
    C2_seed_determinism 100 30 5 7 7 _ _ (by funext i; norm_num)⟩

/-- Claim C3: in the structured branch each segment yields a cue exactly
when its cleaned text is non-empty and the clip-relative window is
non-degenerate; the cue carries relativeStart = max(0, start − clipStart),
relativeEnd = min(max(0, end − clipStart), clipLength), and the multi-line
wrap of the cleaned text's words. -/
theorem C3_segment_cue_rule (cst cd : ℚ) (seg : Segment) :
    ((segmentCue cst cd seg).isSome = true ↔
      (cleanText seg.text.trim ≠ "" ∧
        max 0 (seg.start - cst) < min (max 0 (seg.endTime - cst)) cd)) ∧
    (∀ rs re txt, segmentCue cst cd seg = some (rs, re, txt) →
      rs = max 0 (seg.start - cst) ∧ re = min (max 0 (seg.endTime - cst)) cd ∧
      txt = createMultiLineSubtitle (pySplitWs (cleanText seg.text.trim))) := by
  refine ⟨?_, ?_⟩
  · by_cases h : cleanText seg.text.trim ≠ "" ∧
        max 0 (seg.start - cst) < min (max 0 (seg.endTime - cst)) cd
    · refine iff_of_true ?_ h
      unfold segmentCue relativeStart relativeEnd
      rw [if_pos h]
      rfl
    · refine iff_of_false ?_ h
      unfold segmentCue relativeStart relativeEnd
      rw [if_neg h]
      simp
  · intro rs re txt heq
    unfold segmentCue relativeStart relativeEnd at heq
    by_cases h : cleanText seg.text.trim ≠ "" ∧
        max 0 (seg.start - cst) < min (max 0 (seg.endTime - cst)) cd
    · rw [if_pos h, Option.some.injEq] at heq
      simp only [Prod.mk.injEq] at heq
      obtain ⟨h1, h2, h3⟩ := heq
      exact ⟨h1.symm, h2.symm, h3.symm⟩
    · rw [if_neg h] at heq
      simp at heq

theorem C3_segment_cue_rule_witness :
    (segmentCue 4 30 (Segment.mk 5 9 "Ola mundo.")).isSome = true :=
  ((C3_segment_cue_rule 4 30 (Segment.mk 5 9 "Ola mundo.")).1).mpr
    (by constructor
        · with_unfolding_all decide
        · norm_num)

/-- Claim C10: transcribe_segment shifts every segment timestamp by the
clip's start time, and create_subtitles then subtracts the stored start
time; when the two agree the shifts cancel and every relative start (and
end) equals the clamped clip-local timestamp. -/
theorem C10_offset_cancellation (st cd : ℚ) (segs : List Segment) :
    (adjustSegments segs st).map (relativeStart st) =
      segs.map (fun g => max 0 g.start) ∧
    (adjustSegments segs st).map (relativeEnd st cd) =
      segs.map (fun g => min (max 0 g.endTime) cd) := by
  constructor <;>
    simp [adjustSegments, relativeStart, relativeEnd, List.map_map,
      Function.comp_def, add_sub_cancel_right]

/-- Claim C5: the clip-count policy of create_cuts follows the table
(1 when totalDuration ≤ 5 or ≤ targetLength; 3 when ≤ targetLength × 3;
5 when ≤ targetLength × 5; 10 when ≤ targetLength × 10; otherwise
min(20, floor(totalDuration / targetLength))); the plan for
(totalDuration, targetLength) = (12, 15) is exactly one clip spanning
[0, 12), and for (100, 30) the chosen count is 5. -/
theorem C5_clip_count_policy :
    (∀ totalDuration duration : ℚ, numCutsFor totalDuration duration =
      if totalDuration ≤ 5 ∨ totalDuration ≤ duration then 1
      else if totalDuration ≤ duration * 3 then 3
      else if totalDuration ≤ duration * 5 then 5
      else if totalDuration ≤ duration * 10 then 10
      else min 20 (Int.toNat ⌊totalDuration / duration⌋)) ∧
    (∀ u : ℕ → ℚ, createCuts 12 15 u = [ClipSpec.mk 1 0 12]) ∧
    numCutsFor 100 30 = 5 := by
  refine ⟨?_, ?_, by with_unfolding_all decide⟩
  · intro total d
    unfold numCutsFor
    by_cases h1 : total ≤ 5
    · simp [h1]
    · by_cases h2 : total ≤ d <;> simp [h1, h2]
  · intro u
    with_unfolding_all rfl

/-- Claim C6: a clip is emitted by the create_cuts loop exactly when the
i-th start point exists and min(start + targetLength, totalDuration) −
start ≥ 1, in which case its end is that minimum and its id is the
original 1-indexed loop position i + 1; ids can stay non-contiguous after
drops, as the concrete plan [(id 1, 0..5), (id 3, 5..10)] shows. -/
theorem C6_clip_windows :
    (∀ (pts : List ℚ) (duration totalDuration : ℚ) (n : ℕ) (c : ClipSpec),
      c ∈ cutsFromPoints pts duration totalDuration n ↔
        ∃ i, i < n ∧ ∃ s, pts[i]? = some s ∧
          1 ≤ min (s + duration) totalDuration - s ∧
          c = ClipSpec.mk (i + 1) s (min (s + duration) totalDuration)) ∧
    cutsFromPoints [0, 20, 5] 5 10 3 =
      [ClipSpec.mk 1 0 5, ClipSpec.mk 3 5 10] := by
  refine ⟨?_, by with_unfolding_all decide⟩
  intro pts duration totalDuration n c
  simp only [cutsFromPoints, List.mem_filterMap, List.mem_range]
  constructor
  · rintro ⟨i, hi, hf⟩
    refine ⟨i, hi, ?_⟩
    cases hp : pts[i]? with
    | none => rw [hp] at hf; simp at hf
    | some s =>
        rw [hp] at hf
        by_cases hlen : min (s + duration) totalDuration - s < 1
        · simp only [hlen, if_true] at hf
          exact Option.noConfusion hf
        · simp only [hlen, if_false, Option.some.injEq] at hf
          exact ⟨s, rfl, not_lt.mp hlen, hf.symm⟩
  · rintro ⟨i, hi, s, hp, hlen, rfl⟩
    refine ⟨i, hi, ?_⟩
    rw [hp]
    simp only [if_neg (not_lt.mpr hlen)]

theorem thirds_recompose (ws : List String) :
    (ws.take (ws.length / 3) ++
      (ws.drop (ws.length / 3)).take (ws.length * 2 / 3 - ws.length / 3)) ++
      ws.drop (ws.length * 2 / 3) = ws := by
  have hab : ws.length / 3 ≤ ws.length * 2 / 3 := by
    apply Nat.div_le_div_right
    omega
  have h1 : ws.drop (ws.length * 2 / 3) =
      (ws.drop (ws.length / 3)).drop (ws.length * 2 / 3 - ws.length / 3) := by
    rw [List.drop_drop]
    congr 1
    omega
  rw [h1, List.append_assoc, List.take_append_drop, List.take_append_drop]

/-- Claim C7 (amended): create_multi_line_subtitle lays out by joined
length L: L ≤ 20 one line; 20 < L ≤ 40 two lines split at the midpoint
word index, with no re-flow even when a line exceeds 25 characters;
L > 40 three lines split at thirds, and only in this case, when one of
the three lines exceeds 25 characters, the words are re-flowed greedily
(accumulate while currentLength + wordLength + 1 ≤ 25 and fewer than 2
lines are completed, then merge the last two lines until exactly 3
remain). -/
theorem C7_wrap_amended :
    (∀ ws : List String, ws ≠ [] → (joinWords ws).length ≤ 20 →
      createMultiLineSubtitle ws = joinWords ws) ∧
    (∀ ws : List String, 20 < (joinWords ws).length → (joinWords ws).length ≤ 40 →
      createMultiLineSubtitle ws =
        joinWords (ws.take (ws.length / 2)) ++ "\\N" ++
          joinWords (ws.drop (ws.length / 2))) ∧
    (∀ ws : List String, 40 < (joinWords ws).length →
      (joinWords (ws.take (ws.length / 3))).length ≤ 25 →
      (joinWords ((ws.drop (ws.length / 3)).take
        (ws.length * 2 / 3 - ws.length / 3))).length ≤ 25 →
      (joinWords (ws.drop (ws.length * 2 / 3))).length ≤ 25 →
      createMultiLineSubtitle ws =
        joinWords (ws.take (ws.length / 3)) ++ "\\N" ++
          joinWords ((ws.drop (ws.length / 3)).take
            (ws.length * 2 / 3 - ws.length / 3)) ++ "\\N" ++
          joinWords (ws.drop (ws.length * 2 / 3))) ∧
    (∀ ws : List String, 40 < (joinWords ws).length →
      (25 < (joinWords (ws.take (ws.length / 3))).length ∨
        25 < (joinWords ((ws.drop (ws.length / 3)).take
          (ws.length * 2 / 3 - ws.length / 3))).length ∨
        25 < (joinWords (ws.drop (ws.length * 2 / 3))).length) →
      createMultiLineSubtitle ws =
        String.intercalate "\\N" (mergeTo3 (greedyLines ws))) := by
  refine ⟨?_, ?_, ?_, ?_⟩
  · intro ws hne h20
    simp only [createMultiLineSubtitle, if_neg hne, if_pos h20]
  · intro ws h20 h40
    have hne : ws ≠ [] := by
      intro he
      rw [he] at h20
      exact absurd h20 (by decide)
    simp only [createMultiLineSubtitle, if_neg hne, if_neg (not_le.mpr h20), if_pos h40]
  · intro ws h40 h1 h2 h3
    have hne : ws ≠ [] := by
      intro he
      rw [he] at h40
      exact absurd h40 (by decide)
    have h20 : ¬ (joinWords ws).length ≤ 20 := by omega
    have hcond : ¬ (25 < (joinWords (ws.take (ws.length / 3))).length ∨
        25 < (joinWords ((ws.drop (ws.length / 3)).take
          (ws.length * 2 / 3 - ws.length / 3))).length ∨
        25 < (joinWords (ws.drop (ws.length * 2 / 3))).length) := by
      push_neg
      exact ⟨h1, h2, h3⟩
    simp only [createMultiLineSubtitle, if_neg hne, if_neg h20,
      if_neg (not_le.mpr h40), if_neg hcond]
  · intro ws h40 hcond
    have hne : ws ≠ [] := by
      intro he
      rw [he] at h40
      exact absurd h40 (by decide)
    have h20 : ¬ (joinWords ws).length ≤ 20 := by omega
    simp only [createMultiLineSubtitle, if_neg hne, if_neg h20,
      if_neg (not_le.mpr h40), if_pos hcond]
    rw [thirds_recompose]

theorem C7_wrap_amended_witness :
    (["hello"] : List String) ≠ [] ∧ (joinWords ["hello"]).length ≤ 20 ∧
    createMultiLineSubtitle ["hello"] = joinWords ["hello"] :=
  ⟨by decide, by decide, C7_wrap_amended.1 ["hello"] (by decide) (by decide)⟩

/-- Claim C7 (corrected claim, counterexample): for the words
[aaaaaaaaaaaaa, bbbbbbbbbbbbb, cc, dd] (joined length 33, two-line
branch) the midpoint split leaves a first line of 27 > 25 characters and
no greedy re-flow is applied, so the output differs from the re-flowed
layout the claim requires whenever a line exceeds 25 characters. -/
theorem C7_wrap_counterexample :
    createMultiLineSubtitle ["aaaaaaaaaaaaa", "bbbbbbbbbbbbb", "cc", "dd"] =
      "aaaaaaaaaaaaa bbbbbbbbbbbbb\\Ncc dd" ∧
    25 < ("aaaaaaaaaaaaa bbbbbbbbbbbbb" : String).length ∧
    createMultiLineSubtitle ["aaaaaaaaaaaaa", "bbbbbbbbbbbbb", "cc", "dd"] ≠
      String.intercalate "\\N"
        (mergeTo3 (greedyLines ["aaaaaaaaaaaaa", "bbbbbbbbbbbbb", "cc", "dd"])) := by
  exact ⟨by decide, by decide, by decide⟩

theorem floor_div_int_pos (s : ℚ) (m : ℤ) (hm : 0 < m) :
    ⌊s / (m : ℚ)⌋ = ⌊s⌋ / m := by
  have hmq : (0 : ℚ) < (m : ℚ) := by exact_mod_cast hm
  have h1 : m * (⌊s⌋ / m) + ⌊s⌋ % m = ⌊s⌋ := Int.ediv_add_emod ⌊s⌋ m
  have h2 : 0 ≤ ⌊s⌋ % m := Int.emod_nonneg ⌊s⌋ (ne_of_gt hm)
  have h3 : ⌊s⌋ % m < m := Int.emod_lt_of_pos ⌊s⌋ hm
  refine Int.floor_eq_iff.mpr ⟨?_, ?_⟩
  · rw [le_div_iff₀ hmq]
    have hle : ((m * (⌊s⌋ / m) : ℤ) : ℚ) ≤ ((⌊s⌋ : ℤ) : ℚ) := by
      exact_mod_cast by linarith
    calc ((⌊s⌋ / m : ℤ) : ℚ) * (m : ℚ) = ((m * (⌊s⌋ / m) : ℤ) : ℚ) := by
          push_cast
          ring
      _ ≤ ((⌊s⌋ : ℤ) : ℚ) := hle
      _ ≤ s := Int.floor_le s
  · rw [div_lt_iff₀ hmq]
    have hlt : ((⌊s⌋ : ℤ) : ℚ) + 1 ≤ ((m * (⌊s⌋ / m) + m : ℤ) : ℚ) := by
      exact_mod_cast by linarith
    calc s < ((⌊s⌋ : ℤ) : ℚ) + 1 := Int.lt_floor_add_one s
      _ ≤ ((m * (⌊s⌋ / m) + m : ℤ) : ℚ) := hlt
      _ = (((⌊s⌋ / m : ℤ) : ℚ) + 1) * (m : ℚ) := by
          push_cast
          ring

theorem srtHours_eq (s : ℚ) : srtHours s = ⌊s⌋ / 3600 := by
  unfold srtHours
  simpa using floor_div_int_pos s 3600 (by norm_num)

theorem srtMinutes_eq (s : ℚ) : srtMinutes s = ⌊s⌋ % 3600 / 60 := by
  unfold srtMinutes pyMod
  have hq : ⌊s / (3600 : ℚ)⌋ = ⌊s⌋ / 3600 := by
    simpa using floor_div_int_pos s 3600 (by norm_num)
  rw [hq]
  have e1 : s - (3600 : ℚ) * ((⌊s⌋ / 3600 : ℤ) : ℚ) =
      s - ((3600 * (⌊s⌋ / 3600) : ℤ) : ℚ) := by
    push_cast
    ring
  rw [e1]
  have h2 : ⌊(s - ((3600 * (⌊s⌋ / 3600) : ℤ) : ℚ)) / (60 : ℚ)⌋ =
      ⌊s - ((3600 * (⌊s⌋ / 3600) : ℤ) : ℚ)⌋ / 60 := by
    simpa using floor_div_int_pos (s - ((3600 * (⌊s⌋ / 3600) : ℤ) : ℚ)) 60 (by norm_num)
  rw [h2, Int.floor_sub_int]
  omega

theorem srtSecs_eq (s : ℚ) : srtSecs s = ⌊s⌋ % 60 := by
  unfold srtSecs pyMod
  have hq : ⌊s / (60 : ℚ)⌋ = ⌊s⌋ / 60 := by
    simpa using floor_div_int_pos s 60 (by norm_num)
  rw [hq]
  have e1 : s - (60 : ℚ) * ((⌊s⌋ / 60 : ℤ) : ℚ) =
      s - ((60 * (⌊s⌋ / 60) : ℤ) : ℚ) := by
    push_cast
    ring
  rw [e1, Int.floor_sub_int]
  omega

theorem srtMillis_eq (s : ℚ) : srtMillis s = ⌊(s - ⌊s⌋) * 1000⌋ := by
  unfold srtMillis pyMod
  rw [div_one, one_mul]

/-- Claim C8 (corrected claim, counterexample): the program does not
receive the exact value 3661.234 — the literal parses to the nearest
IEEE-754 double 8051138710017671 / 2^41 = 3661.23399999999992..., every
float operation of format_srt_time (lines 680-686) is exact at that
input, and the millisecond truncation int((s % 1) * 1000) gives 233, so
the program prints "01:01:01,233", not the claimed "01:01:01,234". -/
theorem C8_time_format_counterexample :
    formatSrtTime (8051138710017671 / 2199023255552) = "01:01:01,233" ∧
    ("01:01:01,233" : String) ≠ "01:01:01,234" := by
  exact ⟨by with_unfolding_all decide, by decide⟩

/-- Claim C8 (amended): format_srt_time truncates: shown hours are
floor(s)/3600, minutes (floor(s) mod 3600)/60, seconds floor(s) mod 60
(integer division, no rounding), milliseconds the truncation of the
fractional part times 1000; formatCueTime(0) = "00:00:00,000"; at the
literal 3661.234 the seconds argument is the nearest double
8051138710017671 / 2^41 and the output is "01:01:01,233", while the
exact rational 3661.234 would format as "01:01:01,234". -/
theorem C8_time_format :
    formatSrtTime 0 = "00:00:00,000" ∧
    formatSrtTime (8051138710017671 / 2199023255552) = "01:01:01,233" ∧
    formatSrtTime (3661234 / 1000) = "01:01:01,234" ∧
    ∀ s : ℚ, srtHours s = ⌊s⌋ / 3600 ∧ srtMinutes s = ⌊s⌋ % 3600 / 60 ∧
      srtSecs s = ⌊s⌋ % 60 ∧ srtMillis s = ⌊(s - ⌊s⌋) * 1000⌋ := by
  refine ⟨by with_unfolding_all decide, by with_unfolding_all decide,
    by with_unfolding_all decide, fun s => ?_⟩
  exact ⟨srtHours_eq s, srtMinutes_eq s, srtSecs_eq s, srtMillis_eq s⟩

/-- Claim C9: when get_cut_start_time misses the store it computes
(cutId − 1) × 30 with the hard-coded 30-second clip length, clamps it to
totalDuration − 30, returns 0 when totalDuration − 30 ≤ 0, stores the
computed value, and later lookups of the same id return the same value. -/
theorem C9_start_time_fallback (store : List (ℕ × ℚ)) (totalDuration : ℚ)
    (cutId : ℕ) (h : store.lookup cutId = none) :
    (totalDuration - 30 ≤ 0 →
      getCutStartTime store totalDuration cutId = (0, store)) ∧
    (0 < totalDuration - 30 →
      (getCutStartTime store totalDuration cutId).1 =
        min (((cutId : ℚ) - 1) * 30) (totalDuration - 30) ∧
      ((getCutStartTime store totalDuration cutId).2).lookup cutId =
        some (getCutStartTime store totalDuration cutId).1) ∧
    (getCutStartTime (getCutStartTime store totalDuration cutId).2
        totalDuration cutId).1 =
      (getCutStartTime store totalDuration cutId).1 := by
  have hmain : getCutStartTime store totalDuration cutId =
      if totalDuration - 30 ≤ 0 then (0, store)
      else (min (((cutId : ℚ) - 1) * 30) (totalDuration - 30),
        (cutId, min (((cutId : ℚ) - 1) * 30) (totalDuration - 30)) :: store) := by
    unfold getCutStartTime
    rw [h]
  by_cases hA : totalDuration - 30 ≤ 0
  · have e1 : getCutStartTime store totalDuration cutId = (0, store) :=
      hmain.trans (if_pos hA)
    refine ⟨fun _ => e1, fun hB => absurd hA (by linarith), ?_⟩
    rw [e1]
    show (getCutStartTime store totalDuration cutId).1 = (0 : ℚ)
    rw [e1]
  · have e1 : getCutStartTime store totalDuration cutId =
        (min (((cutId : ℚ) - 1) * 30) (totalDuration - 30),
          (cutId, min (((cutId : ℚ) - 1) * 30) (totalDuration - 30)) :: store) :=
      hmain.trans (if_neg hA)
    refine ⟨fun hB => absurd hB hA, fun _ => ⟨by rw [e1], ?_⟩, ?_⟩
    · rw [e1]
      simp [List.lookup]
    · rw [e1]
      show (getCutStartTime
        ((cutId, min (((cutId : ℚ) - 1) * 30) (totalDuration - 30)) :: store)
        totalDuration cutId).1 = min (((cutId : ℚ) - 1) * 30) (totalDuration - 30)
      unfold getCutStartTime
      simp [List.lookup]

theorem C9_start_time_fallback_witness :
    List.lookup 3 ([] : List (ℕ × ℚ)) = none ∧
    (0 : ℚ) < 100 - 30 ∧
    (getCutStartTime [] 100 3).1 = min ((((3 : ℕ) : ℚ) - 1) * 30) (100 - 30) :=
  ⟨rfl, by norm_num,
    ((C9_start_time_fallback [] 100 3 rfl).2.1 (by norm_num)).1⟩

theorem splitNl_ne_nil : ∀ l : List Char, splitNl l ≠ [] := by
  intro l
  induction l with
  | nil => simp [splitNl]
  | cons c rest ih =>
      simp only [splitNl]
      cases h : splitNl rest with
      | nil => simp
      | cons a t => by_cases hc : c = '\n' <;> simp [hc]

theorem splitNl_cons_eval (c : Char) (rest h : List Char)
    (t : List (List Char)) (hr : splitNl rest = h :: t) :
    splitNl (c :: rest) = if c = '\n' then [] :: h :: t else (c :: h) :: t := by
  simp only [splitNl, hr]

theorem splitNl_append_noNl :
    ∀ (p : List Char), (∀ c ∈ p, c ≠ '\n') → ∀ x : List Char,
      ∃ h t, splitNl (p ++ x) = (p ++ h) :: t ∧ splitNl x = h :: t := by
  intro p
  induction p with
  | nil =>
      intro _ x
      cases hx : splitNl x with
      | nil => exact absurd hx (splitNl_ne_nil x)
      | cons h t => exact ⟨h, t, by simpa using hx, rfl⟩
  | cons c p2 ih =>
      intro hno x
      obtain ⟨h, t, h1, h2⟩ := ih (fun d hd => hno d (List.mem_cons_of_mem c hd)) x
      have hc : c ≠ '\n' := hno c (List.mem_cons_self c p2)
      refine ⟨h, t, ?_, h2⟩
      rw [List.cons_append, splitNl_cons_eval c (p2 ++ x) (p2 ++ h) t h1]
      simp [hc]

theorem splitNl_double_head (p : List Char) (hp : ∀ c ∈ p, c ≠ '\n')
    (x : List Char) :
    ∃ h t, splitNl ('1' :: '\n' :: (p ++ x)) = ['1'] :: (p ++ h) :: t := by
  obtain ⟨h, t, he, _⟩ := splitNl_append_noNl p hp x
  have e1 : splitNl ('\n' :: (p ++ x)) = [] :: (p ++ h) :: t := by
    rw [splitNl_cons_eval _ _ _ _ he]
    simp
  have e2 : splitNl ('1' :: '\n' :: (p ++ x)) = ['1'] :: (p ++ h) :: t := by
    rw [splitNl_cons_eval _ _ _ _ e1]
    simp
  exact ⟨h, t, e2⟩

theorem hasArrow_marker_head (x : List Char) :
    hasArrow ("00:00:00,000 --> ".data ++ x) = true := rfl

theorem hasTimestampLine_of_marker (s : String) (x : List Char)
    (hs : s.data = "1\n00:00:00,000 --> ".data ++ x) :
    hasTimestampLine s = true := by
  unfold hasTimestampLine
  rw [hs]
  have hlit : ("1\n00:00:00,000 --> ").data ++ x =
      '1' :: '\n' :: ("00:00:00,000 --> ".data ++ x) := by
    have h0 : ("1\n00:00:00,000 --> ").data =
        ['1', '\n'] ++ ("00:00:00,000 --> ").data := by decide
    rw [h0, List.append_assoc]
    rfl
  rw [hlit]
  obtain ⟨h, t, he2⟩ := splitNl_double_head ("00:00:00,000 --> ".data) (by decide) x
  rw [he2]
  simp only [List.any_cons, hasArrow_marker_head h, Bool.or_true, Bool.true_or]

theorem applyFinalChecks_marker (cutId : ℕ) (cd : ℚ) (base : String) :
    hasTimestampLine (applyFinalChecks cutId cd base) = true := by
  have key : ∀ s : String, hasTimestampLine
      (if ¬ hasTimestampLine s then
        "1\n00:00:00,000 --> " ++ formatSrtTime cd
          ++ "\nTranscrição automática\\Ncorte " ++ natRepr cutId ++ "\n\n"
      else s) = true := by
    intro s
    by_cases hA : hasTimestampLine s = true
    · simp [hA]
    · rw [if_pos (by simpa using hA)]
      exact hasTimestampLine_of_marker _
        ((formatSrtTime cd ++ "\nTranscrição automática\\Ncorte "
          ++ natRepr cutId ++ "\n\n").data)
        (by simp [String.data_append, List.append_assoc])
  unfold applyFinalChecks
  exact key _

/-- Claim C4 (corrected claim, counterexample): called with structured
transcription whose segment list and text are both empty, create_subtitles
returns one cue spanning [0, clipLength] whose text line is EMPTY (the
empty transcript text), not placeholder text: the serialized cue already
passes the length and marker checks, so no placeholder is substituted
(line index 2 of the result, the cue text, is the empty line). -/
theorem C4_escalating_fallback_counterexample :
    createSrtContent (Transcription.structured "" []) 1 0 30 =
      "1\n00:00:00,000 --> 00:00:30,000\n\n\n" ∧
    (splitNl (("1\n00:00:00,000 --> 00:00:30,000\n\n\n" : String).data))[2]? =
      some [] := by
  exact ⟨by with_unfolding_all decide, by decide⟩

/-- Claim C4 (amended): the three escalating checks guarantee that
create_subtitles never returns an empty or marker-free serialization —
for every input the result contains a line with the time-range marker and
is non-empty; however, with empty segments and empty text the result is
a single cue spanning [0, clipLength] whose text is the empty transcript
text rather than a placeholder. -/
theorem C4_escalating_fallback_amended :
    (∀ (data : Transcription) (cutId : ℕ) (cutStartTime cutDuration : ℚ),
      hasTimestampLine (createSrtContent data cutId cutStartTime cutDuration) = true ∧
      createSrtContent data cutId cutStartTime cutDuration ≠ "") ∧
    createSrtContent (Transcription.structured "" []) 1 0 30 =
      "1\n00:00:00,000 --> 00:00:30,000\n\n\n" ∧
    (splitNl (createSrtContent (Transcription.structured "" []) 1 0 30).data)[2]? =
      some [] := by
  refine ⟨?_, by with_unfolding_all decide, by with_unfolding_all decide⟩
  intro data cutId cutStartTime cutDuration
  have hm : hasTimestampLine (createSrtContent data cutId cutStartTime cutDuration)
      = true := by
    unfold createSrtContent
    exact applyFinalChecks_marker cutId cutDuration _
  refine ⟨hm, ?_⟩
  intro he
  rw [he] at hm
  exact absurd hm (by decide)
